import Mathlib

/-!
Verification of the space-radio core against its specification.

The first section shallowly embeds the code of `src/lib.rs`: the parameter
bank built by `SpaceRadioParams::default`, the bus-configuration predicate
`accepts_bus_config`, and the per-block `process` function.  Floating-point
sample and parameter values are idealized as rationals; the parameter
smoother is represented by the sequence of values its successive `next()`
calls produce.

The second section models, from the specification, the components of the
repository that are not present under `src/` (the Change Tracker, the
processing-block driver's drain-and-dispatch step, the Dispatch Task
executor, the Network Sender and Endpoint Configuration, and the
helper-thread initialization rendezvous).
-/

/-- Value range of a float parameter, from nih-plug's `FloatRange` as used in
`src/lib.rs` (`Linear { min, max }` and `Skewed { min, max, factor }`). -/
inductive FloatRange where
  | Linear (min max : ℚ)
  | Skewed (min max factor : ℚ)
  deriving DecidableEq, Repr

/-- A float parameter as constructed by `FloatParam::new(name, default, range)`
in `src/lib.rs`. -/
structure FloatParam where
  name : String
  defaultValue : ℚ
  range : FloatRange
  deriving DecidableEq, Repr

/-- The `ArrayParams` struct of `src/lib.rs`: a single float parameter `nope`. -/
structure ArrayParams where
  nope : FloatParam
  deriving DecidableEq, Repr

/-- The `array_params` field built by `SpaceRadioParams::default` in
`src/lib.rs`: `(1..16).map(|index| ArrayParams { nope: FloatParam::new(
format!("Channel {index}"), 0.0, FloatRange::Linear { min: 0, max: 1.0 }) })`.
Rust's `(1..16)` is the half-open range 1, 2, ..., 15. -/
def SpaceRadioParams.array_params : List ArrayParams :=
  (List.range' 1 15).map fun index =>
    { nope :=
        { name := "Channel " ++ toString index
          defaultValue := 0
          range := FloatRange.Linear 0 1 } }

/-- The part of nih-plug's `BusConfig` read by `accepts_bus_config`. -/
structure BusConfig where
  num_input_channels : ℕ
  num_output_channels : ℕ
  deriving DecidableEq, Repr

/-- `SpaceRadio::accepts_bus_config` from `src/lib.rs`:
`config.num_input_channels == config.num_output_channels &&
config.num_input_channels > 0`. -/
def accepts_bus_config (config : BusConfig) : Bool :=
  (config.num_input_channels == config.num_output_channels) &&
    decide (config.num_input_channels > 0)

/-- nih-plug's `ProcessStatus` as returned by `SpaceRadio::process`. -/
inductive ProcessStatus where
  | Normal
  | Tainted
  | KeepAlive
  deriving DecidableEq, Repr

/-- The loop body of `SpaceRadio::process`: for each frame (the samples of
all channels at one position, as yielded by `buffer.iter_samples()`) the
gain smoother's `next()` is called once and every channel sample of the
frame is multiplied by that gain.  `g k` is the value produced by the k-th
call to `next()`, counting from `k`. -/
def processFrames (g : ℕ → ℚ) : ℕ → List (List ℚ) → List (List ℚ)
  | _, [] => []
  | k, frame :: rest => frame.map (fun s => s * g k) :: processFrames g (k + 1) rest

/-- `SpaceRadio::process` from `src/lib.rs`: scales every frame by the next
smoothed gain value and returns `ProcessStatus::Normal`. -/
def process (g : ℕ → ℚ) (buffer : List (List ℚ)) : List (List ℚ) × ProcessStatus :=
  (processFrames g 0 buffer, ProcessStatus.Normal)

theorem processFrames_get? (g : ℕ → ℚ) (k n : ℕ) (buffer : List (List ℚ)) :
    (processFrames g k buffer).get? n =
      (buffer.get? n).map fun frame => frame.map fun s => s * g (k + n) := by
  induction buffer generalizing k n with
  | nil => simp [processFrames]
  | cons frame rest ih =>
    cases n with
    | zero => simp [processFrames]
    | succ m =>
      simp only [processFrames, List.get?_cons_succ, ih (k + 1) m]
      have h : k + 1 + m = k + (m + 1) := by omega
      rw [h]

/-- C10: `accepts_bus_config` accepts exactly the symmetric nonempty layouts. -/
theorem accepts_bus_config_iff (config : BusConfig) :
    accepts_bus_config config = true ↔
      config.num_input_channels = config.num_output_channels ∧
        config.num_input_channels > 0 := by
  simp [accepts_bus_config]

/-- Witness for C10 at the concrete stereo configuration. -/
theorem accepts_bus_config_iff_witness :
    accepts_bus_config { num_input_channels := 2, num_output_channels := 2 } = true :=
  (accepts_bus_config_iff { num_input_channels := 2, num_output_channels := 2 }).mpr
    (by decide)

/-- C9: `process` multiplies every sample of the n-th frame (all channels) by
the n-th output of the gain smoother and always returns `ProcessStatus::Normal`. -/
theorem process_frames_scaled (g : ℕ → ℚ) (buffer : List (List ℚ)) (n : ℕ) :
    ((process g buffer).1.get? n =
        (buffer.get? n).map fun frame => frame.map fun s => s * g n) ∧
      (process g buffer).2 = ProcessStatus.Normal := by
  refine ⟨?_, rfl⟩
  simpa using processFrames_get? g 0 n buffer

/-- C2 counterexample: the default parameter bank exposes 15 array controls,
not 64. -/
theorem array_params_length_ne_64 :
    SpaceRadioParams.array_params.length = 15 ∧
      SpaceRadioParams.array_params.length ≠ 64 := by
  constructor <;> decide

/-- C2 (amended): the default parameter bank exposes exactly 15 array
controls, each a float parameter with default value 0 and range [0, 1]. -/
theorem array_params_spec :
    SpaceRadioParams.array_params.length = 15 ∧
      (SpaceRadioParams.array_params.all fun p =>
        decide (p.nope.range = FloatRange.Linear 0 1) &&
          decide (p.nope.defaultValue = 0)) = true := by
  constructor <;> decide

/-!
## Spec-modelled core

The repository's full core (the Change Tracker, the per-block drain-and-
dispatch driver, the Dispatch Task executor, the Network Sender and the
Endpoint Configuration, and the helper-thread initialization) belongs to an
iteration of the source that is not present under `src/`; the definitions
below model it from the specification's component contracts.
-/

/-- Modelled from the spec: a Dispatch Task, the immutable record
`{index, value}` enqueued once per dirty control per processing block
(spec §3, §4.4).  The repository's dispatch-task type is absent from
`src/`. -/
structure DispatchTask where
  index : ℕ
  value : ℚ
  deriving DecidableEq, Repr

/-- Modelled from the spec: `mark_dirty(index)` of the Change Tracker
(spec §4.1) — idempotent insertion of an index into the pending set.
The repository's tracker implementation is absent from `src/`; the
concurrent set is modelled as a duplicate-free list of indices. -/
def mark_dirty (tracker : List ℕ) (index : ℕ) : List ℕ :=
  if index ∈ tracker then tracker else index :: tracker

/-- Modelled from the spec: `drain()` of the Change Tracker (spec §4.1) —
atomically empties the tracker, returning the previously pending indices
together with the emptied tracker state. -/
def drain (tracker : List ℕ) : List ℕ × List ℕ :=
  (tracker, [])

/-- Modelled from the spec: the shared state the block driver sees — the
Change Tracker, the Control Bank's current values, and the Task Queue
(spec §2, §3). -/
structure CoreState where
  tracker : List ℕ
  controls : ℕ → ℚ
  queue : List DispatchTask

/-- Modelled from the spec: a control write on the real-time path
(spec §4.2) — the write stores the new value and the control's change
callback synchronously marks its own index dirty. -/
def applyWrite (s : CoreState) (index : ℕ) (v : ℚ) : CoreState :=
  { s with
    controls := Function.update s.controls index v
    tracker := mark_dirty s.tracker index }

/-- Modelled from the spec: a sequence of control writes within one
processing block, applied in order. -/
def applyWrites (writes : List (ℕ × ℚ)) (s : CoreState) : CoreState :=
  writes.foldl (fun acc w => applyWrite acc w.1 w.2) s

/-- Modelled from the spec: the Processing-Block Driver (spec §4.3) —
(1) drain the Change Tracker; (2) for each returned index, read the
control's current value and submit one Dispatch Task `{index, value}` to
the Task Queue; (3) return normally regardless of the queue-submission
outcome.  `submitOk` is the external Executor's acceptance of each
submission; only the queue contents, never the driver's behavior, depend
on it.  The returned triple is (new state, submitted tasks, status). -/
def processBlock (submitOk : DispatchTask → Bool) (s : CoreState) :
    CoreState × List DispatchTask × ProcessStatus :=
  let dirty := (drain s.tracker).1
  let submitted := dirty.map fun i => DispatchTask.mk i (s.controls i)
  ({ tracker := (drain s.tracker).2
     controls := s.controls
     queue := s.queue ++ submitted.filter submitOk },
   submitted, ProcessStatus.Normal)

theorem mark_dirty_mem (tracker : List ℕ) (index : ℕ) :
    index ∈ mark_dirty tracker index := by
  unfold mark_dirty
  split
  case isTrue h => exact h
  case isFalse h => exact List.mem_cons_self index tracker

theorem mark_dirty_idem (tracker : List ℕ) (index : ℕ) :
    mark_dirty (mark_dirty tracker index) index = mark_dirty tracker index := by
  unfold mark_dirty
  split
  case isTrue h => simp [h]
  case isFalse h => simp

theorem mark_dirty_nodup {tracker : List ℕ} (h : tracker.Nodup) (index : ℕ) :
    (mark_dirty tracker index).Nodup := by
  unfold mark_dirty
  split
  case isTrue _ => exact h
  case isFalse hn => exact List.nodup_cons.mpr ⟨hn, h⟩

theorem applyWrites_tracker_single (i : ℕ) (vs : List ℚ) (s : CoreState) :
    (applyWrites (vs.map fun v => (i, v)) s).tracker =
      if vs = [] then s.tracker else mark_dirty s.tracker i := by
  induction vs generalizing s with
  | nil => simp [applyWrites]
  | cons v rest ih =>
    have step : applyWrites ((v :: rest).map fun w => (i, w)) s =
        applyWrites (rest.map fun w => (i, w)) (applyWrite s i v) := rfl
    rw [step, ih (applyWrite s i v)]
    by_cases hr : rest = []
    · simp [hr, applyWrite]
    · simp only [hr, if_neg (List.cons_ne_nil v rest), if_neg hr, applyWrite]
      exact mark_dirty_idem s.tracker i

theorem applyWrites_controls_last (i : ℕ) (vs : List ℚ) (s : CoreState) (h : vs ≠ []) :
    (applyWrites (vs.map fun v => (i, v)) s).controls i = vs.getLast h := by
  induction vs generalizing s with
  | nil => exact absurd rfl h
  | cons v rest ih =>
    have step : applyWrites ((v :: rest).map fun w => (i, w)) s =
        applyWrites (rest.map fun w => (i, w)) (applyWrite s i v) := rfl
    rw [step]
    by_cases hr : rest = []
    · subst hr
      simp [applyWrites, applyWrite, List.getLast]
    · rw [ih (applyWrite s i v) hr, List.getLast_cons hr]

/-- C5: draining twice in a row without intervening writes yields the empty
set the second time, for every tracker state; moreover the first drain
already leaves the tracker empty. -/
theorem drain_idempotent_empty (tracker : List ℕ) :
    (drain (drain tracker).2).1 = [] ∧ (drain tracker).2 = [] :=
  ⟨rfl, rfl⟩

/-- C1: the block driver drains the tracker, then submits exactly one
Dispatch Task per dirty index carrying that control's current value, and
returns `ProcessStatus::Normal` whatever the queue-submission outcome. -/
theorem processBlock_dispatches_once (submitOk : DispatchTask → Bool)
    (s : CoreState) (h : s.tracker.Nodup) :
    (processBlock submitOk s).2.2 = ProcessStatus.Normal ∧
      (processBlock submitOk s).1.tracker = [] ∧
      (∀ i ∈ (drain s.tracker).1,
        ((processBlock submitOk s).2.1.countP fun t => t.index == i) = 1) ∧
      ∀ t ∈ (processBlock submitOk s).2.1,
        t.index ∈ s.tracker ∧ t.value = s.controls t.index := by
  refine ⟨rfl, rfl, ?_, ?_⟩
  · intro i hi
    have hmap : ((s.tracker.map fun j => DispatchTask.mk j (s.controls j)).countP
        fun t => t.index == i) = s.tracker.countP fun j => j == i :=
      List.countP_map _ _ _
    have hcount : s.tracker.count i = 1 := List.count_eq_one_of_mem h hi
    simpa [processBlock, drain, List.count] using hmap.trans hcount
  · intro t ht
    simp only [processBlock, drain, List.mem_map] at ht
    obtain ⟨j, hj, rfl⟩ := ht
    exact ⟨hj, rfl⟩

/-- Witness for C1: two dirty controls, a rejecting queue. -/
theorem processBlock_dispatches_once_witness :
    (processBlock (fun _ => false)
        { tracker := [3, 47], controls := fun _ => 0, queue := [] }).2.2 =
        ProcessStatus.Normal ∧
      (processBlock (fun _ => false)
        { tracker := [3, 47], controls := fun _ => 0, queue := [] }).1.tracker = [] ∧
      (∀ i ∈ (drain ([3, 47] : List ℕ)).1,
        ((processBlock (fun _ => false)
          { tracker := [3, 47], controls := fun _ => 0, queue := [] }).2.1.countP
            fun t => t.index == i) = 1) ∧
      ∀ t ∈ (processBlock (fun _ => false)
          { tracker := [3, 47], controls := fun _ => 0, queue := [] }).2.1,
        t.index ∈ ([3, 47] : List ℕ) ∧ t.value = (fun _ => (0 : ℚ)) t.index :=
  processBlock_dispatches_once (fun _ => false)
    { tracker := [3, 47], controls := fun _ => 0, queue := [] } (by decide)

/-- C3: any nonempty sequence of writes to a single control within one block
coalesces into exactly one Dispatch Task at drain time, carrying the value
observed at drain time (the last written value), never an intermediate one. -/
theorem writes_coalesce_to_last (i : ℕ) (vs : List ℚ) (s : CoreState)
    (h0 : s.tracker = []) (hvs : vs ≠ []) :
    (processBlock (fun _ => true) (applyWrites (vs.map fun v => (i, v)) s)).2.1 =
        [DispatchTask.mk i (vs.getLast hvs)] ∧
      (applyWrites (vs.map fun v => (i, v)) s).controls i = vs.getLast hvs := by
  have hc := applyWrites_controls_last i vs s hvs
  have ht := applyWrites_tracker_single i vs s
  rw [if_neg hvs, h0] at ht
  have htr : (applyWrites (vs.map fun v => (i, v)) s).tracker = [i] := by
    rw [ht]; rfl
  refine ⟨?_, hc⟩
  simp [processBlock, drain, htr, hc]

/-- Witness for C3: control 5 written 0.1, 0.5, 0.9 within one block. -/
theorem writes_coalesce_to_last_witness :
    (processBlock (fun _ => true)
        (applyWrites (([(1 : ℚ)/10, 1/2, 9/10]).map fun v => (5, v))
          { tracker := [], controls := fun _ => 0, queue := [] })).2.1 =
        [DispatchTask.mk 5 (([(1 : ℚ)/10, 1/2, 9/10]).getLast (by simp))] ∧
      (applyWrites (([(1 : ℚ)/10, 1/2, 9/10]).map fun v => (5, v))
          { tracker := [], controls := fun _ => 0, queue := [] }).controls 5 =
        ([(1 : ℚ)/10, 1/2, 9/10]).getLast (by simp) :=
  writes_coalesce_to_last 5 [(1 : ℚ)/10, 1/2, 9/10]
    { tracker := [], controls := fun _ => 0, queue := [] } rfl (by simp)

/-- Modelled from the spec: the Endpoint Configuration (spec §3) —
`{address: string, port: unsigned 16-bit integer}`.  The repository's
configuration parameters are absent from `src/`. -/
structure EndpointConfig where
  address : String
  port : ℕ
  deriving DecidableEq, Repr

/-- Modelled from the spec: the destination string recombined from one
configuration snapshot, formatted as `address:port` (spec §4.4). -/
def destination (c : EndpointConfig) : String :=
  c.address ++ ":" ++ toString c.port

/-- Modelled from the spec: one outbound message — an address pattern
`"/{index}"` with the 0-based control index as decimal ASCII, paired with a
single floating-point argument, idealized as a rational (spec §6). -/
structure OscMessage where
  addr : String
  arg : ℚ
  deriving DecidableEq, Repr

/-- Modelled from the spec: formatting of the outbound message for a
Dispatch Task `{index, value}` (spec §4.4, §6). -/
def formatMessage (index : ℕ) (value : ℚ) : OscMessage :=
  { addr := "/" ++ toString index, arg := value }

/-- Modelled from the spec: the Network Sender handle — a socket bound to a
local ephemeral endpoint (spec §3); only its presence or absence matters to
the dispatch path. -/
structure NetworkSender where
  localPort : ℕ
  deriving DecidableEq, Repr

/-- How a single Dispatch Task completes: `delivered` on a successful
transmit, `dropped` when the Network Sender is absent (silent discard),
`failed` on a transmission error. -/
inductive TaskOutcome where
  | delivered
  | dropped
  | failed
  deriving DecidableEq, Repr

/-- Modelled from the spec: the Executor running one Dispatch Task
(spec §4.4) — acquire the Network Sender; if absent, discard silently; if
present, read the current Endpoint Configuration, format the destination
and the message, and attempt to transmit.  `transmit` is the network's
success predicate.  Returns (sender state after, attempted sends, outcome). -/
def runTask (transmit : String → OscMessage → Bool) (sender : Option NetworkSender)
    (cfg : EndpointConfig) (t : DispatchTask) :
    Option NetworkSender × List (String × OscMessage) × TaskOutcome :=
  match sender with
  | none => (none, [], TaskOutcome.dropped)
  | some s =>
      let dest := destination cfg
      let msg := formatMessage t.index t.value
      (some s, [(dest, msg)],
        if transmit dest msg then TaskOutcome.delivered else TaskOutcome.failed)

/-- Modelled from the spec: the Executor running a block's Dispatch Tasks in
submission order (spec §4.4).  Returns the final sender state, the attempted
sends in order, and each task's outcome. -/
def runTasks (transmit : String → OscMessage → Bool) (sender : Option NetworkSender)
    (cfg : EndpointConfig) :
    List DispatchTask → Option NetworkSender × List (String × OscMessage) × List TaskOutcome
  | [] => (sender, [], [])
  | t :: rest =>
      let r := runTask transmit sender cfg t
      let rr := runTasks transmit r.1 cfg rest
      (rr.1, r.2.1 ++ rr.2.1, r.2.2 :: rr.2.2)

theorem runTasks_some (transmit : String → OscMessage → Bool) (sender : NetworkSender)
    (cfg : EndpointConfig) (ts : List DispatchTask) :
    runTasks transmit (some sender) cfg ts =
      (some sender,
        ts.map fun t => (destination cfg, formatMessage t.index t.value),
        ts.map fun t =>
          if transmit (destination cfg) (formatMessage t.index t.value)
          then TaskOutcome.delivered else TaskOutcome.failed) := by
  induction ts with
  | nil => rfl
  | cons t rest ih => simp [runTasks, runTask, ih]

/-- C4: with the Network Sender present, dispatching a block's dirty
controls attempts exactly one send per dirty control, whose address pattern
is `"/{index}"` (decimal index) with the control's value as the single
argument, destined to `address:port` resolved from the configuration at
send time. -/
theorem block_wire_format (transmit : String → OscMessage → Bool)
    (sender : NetworkSender) (cfg : EndpointConfig) (dirty : List ℕ)
    (controls : ℕ → ℚ) :
    (runTasks transmit (some sender) cfg
        (dirty.map fun i => DispatchTask.mk i (controls i))).2.1 =
      dirty.map fun i =>
        (cfg.address ++ ":" ++ toString cfg.port,
          OscMessage.mk ("/" ++ toString i) (controls i)) := by
  rw [runTasks_some]
  simp [destination, formatMessage]

/-- C6: with the Network Sender absent, any number of submitted Dispatch
Tasks complete by silently discarding their messages — nothing is sent, no
task fails with an error, and the sender state is untouched. -/
theorem absent_sender_drops_silently (transmit : String → OscMessage → Bool)
    (cfg : EndpointConfig) (ts : List DispatchTask) :
    runTasks transmit none cfg ts =
      (none, [], ts.map fun _ => TaskOutcome.dropped) := by
  induction ts with
  | nil => rfl
  | cons t rest ih => simp [runTasks, runTask, ih]

/-- C7: a send reads one configuration snapshot and recombines its address
and port into a single destination string: whichever of the old or the new
configuration a task's read observes, the destination is that pair in full,
never a mixed pair — checked in general and on the spec's concrete scenario
`127.0.0.1:9009` versus `10.0.0.5:8000`. -/
theorem send_destination_atomic (transmit : String → OscMessage → Bool)
    (sender : NetworkSender) (t : DispatchTask) (old new : EndpointConfig)
    (choice : Bool) :
    ((runTask transmit (some sender) (if choice then old else new) t).2.1.all
        fun m => (m.1 == destination old) || (m.1 == destination new)) = true ∧
      ((runTask transmit (some sender)
          (if choice then EndpointConfig.mk "127.0.0.1" 9009
            else EndpointConfig.mk "10.0.0.5" 8000) t).2.1.all
        fun m => decide (m.1 ≠ "127.0.0.1:8000") &&
          decide (m.1 ≠ "10.0.0.5:9009")) = true := by
  constructor
  · cases choice <;> simp [runTask]
  · cases choice <;> simp [runTask] <;> decide

/-- Modelled from the spec: the phases of Network Sender initialization
(spec §4.5) — the constructing thread spawns a helper thread, the helper
runs the blocking construction and hands the result through a one-shot
rendezvous channel, and only then does the constructing thread proceed with
a received result. -/
inductive InitPhase (R : Type) where
  | start
  | handedOff (r : R)
  | proceeding (r : R)

/-- Modelled from the spec: the two transitions of the initialization
rendezvous (spec §4.5) — the helper thread completes the blocking
construction `build` and hands off its result, and the constructing thread
receives the handed-off result through the one-shot channel. -/
inductive InitStep {R : Type} (build : Unit → R) :
    InitPhase R → InitPhase R → Prop where
  | helperRuns : InitStep build InitPhase.start (InitPhase.handedOff (build ()))
  | rendezvous (r : R) :
      InitStep build (InitPhase.handedOff r) (InitPhase.proceeding r)

theorem initReachableCases {R : Type} (build : Unit → R) {p : InitPhase R}
    (h : Relation.ReflTransGen (InitStep build) InitPhase.start p) :
    p = InitPhase.start ∨ p = InitPhase.handedOff (build ()) ∨
      p = InitPhase.proceeding (build ()) := by
  induction h with
  | refl => exact Or.inl rfl
  | tail h step ih =>
    rcases ih with h1 | h2 | h3
    · subst h1; cases step; exact Or.inr (Or.inl rfl)
    · subst h2; cases step; exact Or.inr (Or.inr rfl)
    · subst h3; cases step

/-- C8: in the initialization rendezvous, whenever the constructing thread
proceeds with a result, that result is exactly the helper thread's
construction result, and the helper's hand-off necessarily happened first —
the constructing thread always waits for and receives the initialization
result before proceeding. -/
theorem helper_thread_rendezvous {R : Type} (build : Unit → R) (r : R)
    (h : Relation.ReflTransGen (InitStep build) InitPhase.start
      (InitPhase.proceeding r)) :
    r = build () ∧
      Relation.ReflTransGen (InitStep build) InitPhase.start
        (InitPhase.handedOff (build ())) := by
  cases h with
  | tail h step =>
    cases step with
    | rendezvous r =>
      rcases initReachableCases build h with h1 | h2 | h3
      · exact absurd h1 (by intro hx; cases hx)
      · have hr : r = build () := by
          injection h2 with hv
        exact ⟨hr, h2 ▸ h⟩
      · exact absurd h3 (by intro hx; cases hx)

/-- Witness for C8: a two-step execution of the rendezvous with a concrete
construction result. -/
theorem helper_thread_rendezvous_witness :
    (42 : ℕ) = (fun _ : Unit => 42) () ∧
      Relation.ReflTransGen (InitStep (fun _ : Unit => (42 : ℕ)))
        InitPhase.start (InitPhase.handedOff ((fun _ : Unit => (42 : ℕ)) ())) :=
  helper_thread_rendezvous (fun _ : Unit => (42 : ℕ)) 42
    (Relation.ReflTransGen.tail
      (Relation.ReflTransGen.single InitStep.helperRuns)
      (InitStep.rendezvous 42))
